import Mathlib

/- Shallow embedding of `src/etl_firestore.py`: the incremental DBF → Firestore
synchronization engine.  Python runtime values are modelled by `Value`, DBF records
by `Row`, Firestore documents and collections by association lists, and the
per-record loop of `process_file` by an explicit fold with explicit state.
Exceptions are modelled with `Except`. -/

namespace Etl

/-- A Python value as it appears in a DBF record: `None`, a string, an integer,
a `datetime.date`, or a `datetime.datetime`. -/
inductive Value where
  | vnone
  | vstr (s : String)
  | vint (n : Int)
  | vdate (y m d : Nat)
  | vdatetime (y m d hh mi ss : Nat)
deriving DecidableEq

/-- Python `str.strip()`: drop whitespace from both ends. -/
def pyStrip (s : String) : String :=
  String.mk (((s.data.dropWhile Char.isWhitespace).reverse.dropWhile Char.isWhitespace).reverse)

/-- Python `str.upper()` (the source data is ASCII). -/
def pyUpper (s : String) : String := String.mk (s.data.map Char.toUpper)

/-- Python `str.lower()` (the source data is ASCII). -/
def pyLower (s : String) : String := String.mk (s.data.map Char.toLower)

/-- Little-endian decimal digits of `n`; structural recursion with fuel `n`. -/
def digitsRevAux : Nat → Nat → List Nat
  | 0, _ => []
  | _ + 1, 0 => []
  | fuel + 1, n + 1 => ((n + 1) % 10) :: digitsRevAux fuel ((n + 1) / 10)

/-- Little-endian decimal digits of `n` (empty for `n = 0`). -/
def digitsRev (n : Nat) : List Nat := digitsRevAux n n

/-- The character of a decimal digit (`'0'.toNat = 48`). -/
def digitChar (d : Nat) : Char := Char.ofNat (48 + d)

/-- The characters of the decimal rendering of `n`, zero-padded on the left to
width `w`: the semantics of Python's format spec `0{w}d`. -/
def padDecChars (w n : Nat) : List Char :=
  let ds := (digitsRev n).reverse.map digitChar
  let ds := if ds = [] then ['0'] else ds
  List.replicate (w - ds.length) '0' ++ ds

/-- Decimal rendering of `n`, zero-padded on the left to width `w`;
`str(n)` for a natural `n` is `padDec 0 n`. -/
def padDec (w n : Nat) : String := String.mk (padDecChars w n)

/-- Python `str(v)` for the value shapes above: `str(None) = "None"`, strings pass
through, and `date`/`datetime` render in their ISO form. -/
def pyStr : Value → String
  | .vnone => "None"
  | .vstr s => s
  | .vint n => (if n < 0 then "-" else "") ++ padDec 0 n.natAbs
  | .vdate y m d => padDec 4 y ++ "-" ++ padDec 2 m ++ "-" ++ padDec 2 d
  | .vdatetime y m d hh mi ss =>
      padDec 4 y ++ "-" ++ padDec 2 m ++ "-" ++ padDec 2 d ++ " " ++
      padDec 2 hh ++ ":" ++ padDec 2 mi ++ ":" ++ padDec 2 ss

/-- The Python exception classes the embedding distinguishes: `TypeError`, and
"some exception no per-record handler names". -/
inductive PyErr where
  | typeErr
  | otherErr
deriving DecidableEq

/-- The `extract_year` function (lines 141–150 of `etl_firestore.py`).
`if val is None or str(val).strip() == ""` returns `None`.  Then
`isinstance(val, (datetime, datetime.date))` is evaluated; the script does
`from datetime import datetime`, so `datetime.date` there is the *method*
`datetime.datetime.date`, not the class `datetime.date`.  CPython checks the tuple
elements left to right and short-circuits on a match, raising `TypeError` when it
reaches a non-type element.  Hence a `datetime` instance short-circuits to `.year`,
while every other non-empty value — including a `datetime.date` and every date
string — raises `TypeError` from the `isinstance` call itself, which sits *before*
the `try`; the `dtparse.parse` branch and its `except` clause are unreachable. -/
def extract_year (val : Value) : Except PyErr (Option Nat) :=
  if val = .vnone ∨ pyStrip (pyStr val) = "" then .ok none
  else
    match val with
    | .vdatetime y _ _ _ _ _ => .ok (some y)
    | _ => .error .typeErr

/-- `KEY_FIELD` (lines 48–53): per-table primary key field. -/
def KEY_FIELD : List (String × String) :=
  [("producto", "CVE_PROD"), ("clientes", "CVE_CTE"), ("creditod", "NO_NOTA"),
   ("creditos", "NO_NOTA"), ("existe", "CVE_PROD"), ("factentr", "NO_FAC"),
   ("facturac", "NO_FAC"), ("facturad", "NO_FAC"), ("precioprod", "CVE_PROD"),
   ("prod_desc", "CVE_PROD"), ("prodimag", "CVE_PROD")]

/-- `DATE_FIELD` (line 54): per-table own date field. -/
def DATE_FIELD : List (String × String) :=
  [("facturac", "FALTA_FAC"), ("creditos", "FECHA")]

/-- `RELATED_DATE` (lines 55–59): detail table ↦ (header table, header key field,
header date field). -/
def RELATED_DATE : List (String × String × String × String) :=
  [("factentr", "facturac", "NO_FAC", "FALTA_FAC"),
   ("facturad", "facturac", "NO_FAC", "FALTA_FAC"),
   ("creditod", "creditos", "NO_NOTA", "FECHA")]

/-- `BATCH_SIZE` (line 41). -/
def BATCH_SIZE : Nat := 400

/-- A DBF record: insertion-ordered field-name/value pairs (dbfread yields an
ordered dict keyed by the upper-case DBF field names). -/
structure Row where
  fields : List (String × Value)
deriving DecidableEq

/-- Python dict assignment `d[k] = v`: replace the first `k` entry in place,
else append at the end. -/
def dictInsert {β : Type} (k : String) (v : β) : List (String × β) → List (String × β)
  | [] => [(k, v)]
  | kv :: rest => if kv.1 = k then (k, v) :: rest else kv :: dictInsert k v rest

/-- Build a Python dict from an insertion-ordered pair sequence: later pairs
overwrite earlier ones in place. -/
def pyDict {β : Type} (l : List (String × β)) : List (String × β) :=
  l.foldl (fun d kv => dictInsert kv.1 kv.2 d) []

/-- `rec.get(k, dflt)`. -/
def Row.get (r : Row) (k : String) (dflt : Value) : Value :=
  (r.fields.lookup k).getD dflt

/-- `rec.get(k)` (default `None`). -/
def Row.getN (r : Row) (k : String) : Value := r.get k .vnone

/-- `rec[k] = v`. -/
def Row.setItem (r : Row) (k : String) (v : Value) : Row := ⟨dictInsert k v r.fields⟩

/-- A normalized document: lowercase field name ↦ string-or-null value. -/
abbrev Doc := List (String × Option String)

/-- `str(v) if v is not None else None`. -/
def toStrOpt : Value → Option String
  | .vnone => none
  | v => some (pyStr v)

/-- Lines 225–227: `{k.lower(): v for k, v in rec.items()}` followed by
`{k: str(v) if v is not None else None for k, v in ...}`. -/
def normalize (r : Row) : Doc :=
  (pyDict (r.fields.map fun kv => (pyLower kv.1, kv.2))).map fun kv => (kv.1, toStrOpt kv.2)

/-- Code-point lexicographic comparison of character lists: the order in which
`json.dumps(..., sort_keys=True)` sorts the keys. -/
def lexLe : List Char → List Char → Bool
  | [], _ => true
  | _ :: _, [] => false
  | a :: as, b :: bs =>
      if a.toNat < b.toNat then true
      else if b.toNat < a.toNat then false
      else lexLe as bs

/-- Lexicographic `≤` on strings. -/
def strLe (a b : String) : Bool := lexLe a.data b.data

/-- Insert an entry into a key-sorted association list, keeping it sorted. -/
def insortKey (p : String × Option String) : Doc → Doc
  | [] => [p]
  | q :: rest => if strLe p.1 q.1 then p :: q :: rest else q :: insortKey p rest

/-- Sort a document's entries by key: the `sort_keys=True` canonical order. -/
def sortByKey (d : Doc) : Doc := d.foldr insortKey []

/-- One `"key": value` entry of the canonical JSON serialization. -/
def jsonEntry (kv : String × Option String) : String :=
  "\"" ++ kv.1 ++ "\": " ++ (match kv.2 with | some s => "\"" ++ s ++ "\"" | none => "null")

/-- Comma-separated concatenation. -/
def joinComma : List String → String
  | [] => ""
  | [s] => s
  | s :: rest => s ++ ", " ++ joinComma rest

/-- `json.dumps(d, sort_keys=True, default=str)` on a flat string-or-null dict
(string escaping is left out: the digest arguments are opaque data here). -/
def jsonDumpsSorted (d : Doc) : String :=
  "\x7b" ++ joinComma ((sortByKey d).map jsonEntry) ++ "\x7d"

/-- `sha1_dict` (lines 138–139): the SHA-1 hex digest of the canonical
serialization.  SHA-1 itself is an external primitive, modelled as an arbitrary
function `sha1 : String → String` passed explicitly; the theorems below hold for
every such function. -/
def sha1_dict (sha1 : String → String) (d : Doc) : String := sha1 (jsonDumpsSorted d)

/-- The `_NNN` suffix of a composite document id: `f"{n:03d}"`. -/
def pad3 (n : Nat) : String := padDec 3 n

/-- The Firestore collection state: document id ↦ document. -/
abbrev Store := List (String × Doc)

/-- Fetch a document. -/
def getDoc (st : Store) (id : String) : Option Doc := st.lookup id

/-- `batch.set(doc_ref, doc_data, merge=True)` semantics at commit time: the
fields of `d` are written over `old`; fields of `old` absent from `d` survive. -/
def mergeDoc (old d : Doc) : Doc := d.foldl (fun acc kv => dictInsert kv.1 kv.2 acc) old

/-- Apply one staged `set(..., merge=True)` to the store. -/
def storeSet (st : Store) (id : String) (d : Doc) : Store :=
  match getDoc st id with
  | some old => dictInsert id (mergeDoc old d) st
  | none => dictInsert id d st

/-- Committing a batch applies its staged writes in staging order. -/
def applyBatch (st : Store) (b : List (String × Doc)) : Store :=
  b.foldl (fun s w => storeSet s w.1 w.2) st

/-- Outcome of `doc_ref.get(field_paths=["h"]).get("h")` (line 231): the stored
fingerprint (`none` when the document is absent or carries no `h`), a
`GoogleAPICallError` (which line 234 catches and treats as "no prior document"),
or any other exception (which no per-record handler catches). -/
inductive ReadRes where
  | found (h : Option String)
  | apiErr
  | exnErr
deriving DecidableEq

/-- The error-free Firestore read: look the fingerprint up in the store. -/
def readHOf (st : Store) (id : String) : ReadRes :=
  .found (((getDoc st id).bind fun d => d.lookup "h").join)

/-- Ghost trace of what happened to each record, in iteration order.  It adds no
behaviour; it only records, for the statements below, which records were filtered,
dropped for lack of a key, counted skipped, or staged as writes. -/
inductive REv where
  | filtered (rec : Row)
  | nokey (rec : Row)
  | skippedRec (id : String) (doc : Doc)
  | stagedRec (id : String) (doc : Doc)
deriving DecidableEq

/-- The loop state of `process_file`: committed store, pending batch, the
`writes`/`skips`/`cnt` counters, `line_counters`, and the ghost trace. -/
structure PState where
  store : Store
  batch : List (String × Doc)
  writes : Nat
  skips : Nat
  cnt : Nat
  line_counters : List (String × Nat)
  log : List REv
deriving DecidableEq

/-- Lines 237–244: stage the write into the batch, count it, and commit the batch
once it reaches `BATCH_SIZE` entries. -/
def stageWrite (st : PState) (id : String) (doc : Doc) : PState :=
  let batch := st.batch ++ [(id, doc)]
  let cnt := st.cnt + 1
  if BATCH_SIZE ≤ cnt then
    { st with
      batch := []
      cnt := 0
      writes := st.writes + 1
      store := applyBatch st.store batch
      log := st.log ++ [.stagedRec id doc] }
  else
    { st with
      batch := batch
      cnt := cnt
      writes := st.writes + 1
      log := st.log ++ [.stagedRec id doc] }

/-- `header_year_map.get(hdr_tab, {}).get(key_val)` (line 208). -/
def headerYear (hym : List (String × List (String × Nat))) (tab key : String) : Option Nat :=
  ((hym.lookup tab).getD []).lookup key

/-- Lines 201–208: the per-record year, from the table's own date field or from the
header date index; `none` when no date association applies or nothing was found. -/
def filterYear (col : String) (hym : List (String × List (String × Nat))) (rec : Row) :
    Except PyErr (Option Nat) :=
  match DATE_FIELD.lookup col with
  | some df => extract_year (rec.getN df)
  | none =>
    match RELATED_DATE.lookup col with
    | some (hdr_tab, hdr_key, _) =>
        .ok (headerYear hym hdr_tab (pyStrip (pyStr (rec.get hdr_key (.vstr "")))))
    | none => .ok none

/-- Lines 213–222: trim the key value; empty means no document identity; for
`facturad`/`creditod` bump the per-key counter, derive the composite id
`<key>_<NNN>` and write the sequence number back into the record as `ROW_ID`. -/
def resolveKey (col key_field : String) (lc : List (String × Nat)) (rec : Row) :
    Option (String × Row × List (String × Nat)) :=
  let key_val := pyStrip (pyStr (rec.get key_field (.vstr "")))
  if key_val = "" then none
  else if col = "facturad" ∨ col = "creditod" then
    let n := (lc.lookup key_val).getD 0 + 1
    some (key_val ++ "_" ++ pad3 n, rec.setItem "ROW_ID" (.vint n), dictInsert key_val n lc)
  else some (key_val, rec, lc)

/-- Lines 225–228: normalize the record and add the fingerprint field `h`,
computed over the document *before* `h` is inserted. -/
def buildDoc (sha1 : String → String) (rec : Row) : Doc :=
  let d := normalize rec
  dictInsert "h" (some (sha1_dict sha1 d)) d

/-- One iteration of the `for rec in records_iterator` loop (lines 200–244).
A `TypeError` from `extract_year`, or a read failure other than
`GoogleAPICallError`, propagates out of the iteration (to be caught only by the
table-level `except Exception`). -/
def processRecord (sha1 : String → String) (CY : Nat) (readH : Store → String → ReadRes)
    (col key_field : String) (hym : List (String × List (String × Nat)))
    (st : PState) (rec : Row) : Except PyErr PState :=
  match filterYear col hym rec with
  | .error e => .error e
  | .ok year =>
    if year.any fun y => y != CY then
      .ok { st with log := st.log ++ [.filtered rec] }
    else
      match resolveKey col key_field st.line_counters rec with
      | none => .ok { st with log := st.log ++ [.nokey rec] }
      | some (doc_id, rec2, lc) =>
        let doc_data := buildDoc sha1 rec2
        let st1 := { st with line_counters := lc }
        match readH st1.store doc_id with
        | .found stored =>
          if stored = some (sha1_dict sha1 (normalize rec2)) then
            .ok { st1 with
                  skips := st1.skips + 1
                  log := st1.log ++ [.skippedRec doc_id doc_data] }
          else .ok (stageWrite st1 doc_id doc_data)
        | .apiErr => .ok (stageWrite st1 doc_id doc_data)
        | .exnErr => .error .otherErr

/-- Lines 193–198: the special predicate for the `existe` table —
`str(rec.get("LUGAR", "")).strip().upper() == "LINEA"` — applied before all other
per-record steps.  Every other table iterates its rows unchanged. -/
def recordsIterator (col : String) (rows : List Row) : List Row :=
  if col = "existe" then
    rows.filter fun rec => pyUpper (pyStrip (pyStr (rec.get "LUGAR" (.vstr "")))) == "LINEA"
  else rows

/-- Line 185: `KEY_FIELD.get(col_name, table.field_names[0]).upper()`. -/
def keyFieldFor (col : String) (field_names : List String) : String :=
  pyUpper ((KEY_FIELD.lookup col).getD (field_names.getD 0 ""))

/-- A loaded DBF table: its schema field names and its rows. -/
structure Table where
  field_names : List String
  rows : List Row

/-- The observable outcome of `process_file` on one table. -/
structure Result where
  writes : Nat
  skips : Nat
  store : Store
  log : List REv
  aborted : Option PyErr
  emptySkip : Bool
deriving DecidableEq

/-- The record loop: fold `processRecord` over the rows, stopping at the first
escaping exception (which loses the pending uncommitted batch). -/
def runLoop (sha1 : String → String) (CY : Nat) (readH : Store → String → ReadRes)
    (col key_field : String) (hym : List (String × List (String × Nat))) :
    PState → List Row → PState × Option PyErr
  | st, [] => (st, none)
  | st, rec :: rest =>
    match processRecord sha1 CY readH col key_field hym st rec with
    | .ok st2 => runLoop sha1 CY readH col key_field hym st2 rest
    | .error e => (st, some e)

/-- `process_file` (lines 173–255) for one table, with the file download already
done (the rows are given) and Firestore modelled by `store0` and `readH`.  An
empty table is skipped.  An exception escaping the loop is caught by the
table-level handler (lines 250–253): the remaining rows are not processed and the
pending uncommitted batch is lost, while already-committed batches remain. -/
def process_file (sha1 : String → String) (CY : Nat) (readH : Store → String → ReadRes)
    (col : String) (table : Table) (hym : List (String × List (String × Nat)))
    (store0 : Store) : Result :=
  if table.rows = [] then
    { writes := 0, skips := 0, store := store0, log := [], aborted := none, emptySkip := true }
  else
    let key_field := keyFieldFor col table.field_names
    let st0 : PState :=
      { store := store0, batch := [], writes := 0, skips := 0, cnt := 0
        line_counters := [], log := [] }
    match runLoop sha1 CY readH col key_field hym st0 (recordsIterator col table.rows) with
    | (st, some e) =>
      { writes := st.writes, skips := st.skips, store := st.store, log := st.log
        aborted := some e, emptySkip := false }
    | (st, none) =>
      { writes := st.writes, skips := st.skips
        store := if 0 < st.cnt then applyBatch st.store st.batch else st.store
        log := st.log, aborted := none, emptySkip := false }

/-- What one call `process_file(f, header_year_map)` does, as observed by `main`:
it returns normally (all internal failures are handled inside), or it raises
`ResourceExhausted` (possible from the download step, which sits outside the
function's own `try`), or it raises some other exception. -/
inductive ProcOutcome where
  | completed
  | raisedQuota
  | raisedOther
deriving DecidableEq

/-- The events of `main`'s file loop.  After `quotaPause` (the
`except ResourceExhausted` handler: print and `time.sleep(30)`) and after
`critFail` (the generic handler), the loop moves on to the *next* file. -/
inductive MainEv where
  | done (name : String)
  | quotaPause (name : String)
  | critFail (name : String)
deriving DecidableEq

/-- The `for f in files_to_process` loop of `main` (lines 274–281). -/
def mainLoop (run : String → ProcOutcome) : List String → List MainEv
  | [] => []
  | f :: fs =>
    (match run f with
     | .completed => MainEv.done f
     | .raisedQuota => MainEv.quotaPause f
     | .raisedOther => MainEv.critFail f) :: mainLoop run fs

/-- The sortedness invariant of the canonical serialization order. -/
abbrev KeySorted (d : Doc) : Prop := d.Pairwise fun x y => strLe x.1 y.1 = true

/-- The inverse of `digitChar` on decimal digits. -/
def charDigit (c : Char) : Nat := c.toNat - 48

/-- Decode a zero-padded decimal rendering back to the number; inverse to
`padDecChars w`. -/
def unpadDec (l : List Char) : Nat :=
  Nat.ofDigits 10 (((l.dropWhile fun c => c == '0').map charDigit).reverse)

/-! ### Dictionary (association list) lemmas -/

theorem lookup_cons_self {β : Type} (a : String) (b : β) (rest : List (String × β)) :
    List.lookup a ((a, b) :: rest) = some b := by simp [List.lookup]

theorem lookup_cons_ne {β : Type} {q a : String} (b : β) (rest : List (String × β))
    (h : q ≠ a) : List.lookup q ((a, b) :: rest) = List.lookup q rest := by
  rw [List.lookup, beq_eq_false_iff_ne.mpr h]

theorem lookup_dictInsert_self {β : Type} (k : String) (v : β) :
    ∀ d : List (String × β), (dictInsert k v d).lookup k = some v
  | [] => by simp [dictInsert]
  | (a, b) :: rest => by
    by_cases h : a = k
    · simp [dictInsert, h, lookup_cons_self]
    · rw [dictInsert, if_neg h, lookup_cons_ne b _ (Ne.symm h)]
      exact lookup_dictInsert_self k v rest

theorem lookup_dictInsert_ne {β : Type} {k q : String} (v : β) (h : q ≠ k) :
    ∀ d : List (String × β), (dictInsert k v d).lookup q = d.lookup q
  | [] => by
    show List.lookup q [(k, v)] = none
    rw [lookup_cons_ne v _ h]; rfl
  | (a, b) :: rest => by
    by_cases ha : a = k
    · subst ha
      rw [dictInsert, if_pos rfl, lookup_cons_ne v _ h, lookup_cons_ne b _ h]
    · rw [dictInsert, if_neg ha]
      by_cases hq : q = a
      · subst hq; rw [lookup_cons_self, lookup_cons_self]
      · rw [lookup_cons_ne b _ hq, lookup_cons_ne b _ hq]
        exact lookup_dictInsert_ne v h rest

theorem lookup_eq_none_of_not_mem {β : Type} {q : String} :
    ∀ {d : List (String × β)}, q ∉ d.map Prod.fst → d.lookup q = none
  | [], _ => rfl
  | (a, b) :: rest, h => by
    simp only [List.map_cons, List.mem_cons] at h
    push_neg at h
    rw [lookup_cons_ne b _ h.1]
    exact lookup_eq_none_of_not_mem h.2

theorem dictInsert_of_not_mem {β : Type} {k : String} (v : β) :
    ∀ {d : List (String × β)}, k ∉ d.map Prod.fst → dictInsert k v d = d ++ [(k, v)]
  | [], _ => rfl
  | (a, b) :: rest, h => by
    simp only [List.map_cons, List.mem_cons] at h
    push_neg at h
    simp [dictInsert, Ne.symm h.1, dictInsert_of_not_mem v h.2]

theorem map_fst_dictInsert {β : Type} (k : String) (v : β) :
    ∀ d : List (String × β),
      (dictInsert k v d).map Prod.fst =
        if k ∈ d.map Prod.fst then d.map Prod.fst else d.map Prod.fst ++ [k]
  | [] => by simp [dictInsert]
  | (a, b) :: rest => by
    by_cases h : a = k
    · subst h; simp [dictInsert]
    · simp only [dictInsert, if_neg h, List.map_cons, map_fst_dictInsert k v rest]
      by_cases hm : k ∈ rest.map Prod.fst <;>
        simp [hm, Ne.symm h, List.mem_cons]

theorem nodup_map_fst_dictInsert {β : Type} (k : String) (v : β)
    (d : List (String × β)) (h : (d.map Prod.fst).Nodup) :
    ((dictInsert k v d).map Prod.fst).Nodup := by
  rw [map_fst_dictInsert]
  by_cases hm : k ∈ d.map Prod.fst
  · simpa [hm]
  · simpa [hm, List.nodup_append] using h

theorem foldl_dictInsert_keys_nodup {β : Type} :
    ∀ (l acc : List (String × β)), (acc.map Prod.fst).Nodup →
      ((l.foldl (fun d kv => dictInsert kv.1 kv.2 d) acc).map Prod.fst).Nodup
  | [], _, h => h
  | _ :: rest, acc, h =>
    foldl_dictInsert_keys_nodup rest _ (nodup_map_fst_dictInsert _ _ acc h)

theorem pyDict_keys_nodup {β : Type} (l : List (String × β)) :
    ((pyDict l).map Prod.fst).Nodup :=
  foldl_dictInsert_keys_nodup l [] (by simp)

theorem foldl_dictInsert_eq_append {β : Type} :
    ∀ (l acc : List (String × β)), (l.map Prod.fst).Nodup →
      (∀ k ∈ l.map Prod.fst, k ∉ acc.map Prod.fst) →
      l.foldl (fun d kv => dictInsert kv.1 kv.2 d) acc = acc ++ l
  | [], acc, _, _ => by simp
  | (a, b) :: rest, acc, hn, hd => by
    rw [List.map_cons, List.nodup_cons] at hn
    simp only [List.foldl_cons]
    rw [dictInsert_of_not_mem b (hd a (by simp))]
    rw [foldl_dictInsert_eq_append rest (acc ++ [(a, b)]) hn.2
      (by
        intro k hk
        have hka : k ≠ a := fun he => hn.1 (he ▸ hk)
        have hkacc : k ∉ acc.map Prod.fst := hd k (by simp [hk])
        simp [hka, hkacc])]
    simp

theorem pyDict_eq_self {β : Type} (l : List (String × β))
    (h : (l.map Prod.fst).Nodup) : pyDict l = l := by
  simpa using foldl_dictInsert_eq_append l [] h (by simp)

theorem map_fst_normalize (r : Row) :
    (normalize r).map Prod.fst =
      (pyDict (r.fields.map fun kv => (pyLower kv.1, kv.2))).map Prod.fst := by
  simp [normalize, List.map_map]

theorem normalize_keys_nodup (r : Row) : ((normalize r).map Prod.fst).Nodup := by
  rw [map_fst_normalize]
  exact pyDict_keys_nodup _

theorem buildDoc_keys_nodup (sha1 : String → String) (r : Row) :
    ((buildDoc sha1 r).map Prod.fst).Nodup :=
  nodup_map_fst_dictInsert _ _ _ (normalize_keys_nodup r)

theorem lookup_mergeDoc (k : String) :
    ∀ (d old : Doc), (d.map Prod.fst).Nodup →
      (mergeDoc old d).lookup k = ((d.lookup k).orElse fun _ => old.lookup k)
  | [], old, _ => by simp [mergeDoc]
  | (a, b) :: rest, old, hn => by
    rw [List.map_cons, List.nodup_cons] at hn
    have IH := lookup_mergeDoc k rest (dictInsert a b old) hn.2
    show (mergeDoc (dictInsert a b old) rest).lookup k = _
    rw [IH]
    by_cases hk : k = a
    · subst hk
      rw [lookup_eq_none_of_not_mem hn.1, lookup_cons_self, lookup_dictInsert_self]
      rfl
    · rw [lookup_dictInsert_ne b hk, lookup_cons_ne b _ hk]

theorem getDoc_storeSet_self (st : Store) (id : String) (d : Doc) :
    getDoc (storeSet st id d) id =
      some (match getDoc st id with | some old => mergeDoc old d | none => d) := by
  unfold storeSet
  cases h : getDoc st id <;> simp [getDoc, lookup_dictInsert_self]

/-! ### Lexicographic order and key sorting -/

theorem char_toNat_inj {a b : Char} (h : a.toNat = b.toNat) : a = b := by
  rw [← Char.ofNat_toNat a, ← Char.ofNat_toNat b, h]

theorem lexLe_total : ∀ a b : List Char, lexLe a b = true ∨ lexLe b a = true
  | [], _ => Or.inl rfl
  | _ :: _, [] => Or.inr rfl
  | a :: as, b :: bs => by
    rcases Nat.lt_trichotomy a.toNat b.toNat with h | h | h
    · exact Or.inl (by simp [lexLe, h])
    · rcases lexLe_total as bs with ih | ih
      · exact Or.inl (by simp [lexLe, h, ih])
      · exact Or.inr (by simp [lexLe, h.symm, ih])
    · exact Or.inr (by simp [lexLe, h])

theorem lexLe_cases {as bs : List Char} {x y : Char}
    (h : lexLe (x :: as) (y :: bs) = true) :
    x.toNat < y.toNat ∨ (x.toNat = y.toNat ∧ lexLe as bs = true) := by
  by_cases g : x.toNat < y.toNat
  · exact Or.inl g
  · by_cases g' : y.toNat < x.toNat
    · simp [lexLe, g, g'] at h
    · exact Or.inr ⟨by omega, by simpa [lexLe, g, g'] using h⟩

theorem lexLe_trans : ∀ a b c : List Char,
    lexLe a b = true → lexLe b c = true → lexLe a c = true
  | [], _, _, _, _ => rfl
  | _ :: _, [], _, h, _ => by simp [lexLe] at h
  | _ :: _, _ :: _, [], _, h => by simp [lexLe] at h
  | a :: as, b :: bs, c :: cs, h1, h2 => by
    rcases lexLe_cases h1 with g | ⟨ge, gl⟩ <;> rcases lexLe_cases h2 with g' | ⟨ge', gl'⟩
    · simp [lexLe, show a.toNat < c.toNat by omega]
    · simp [lexLe, show a.toNat < c.toNat by omega]
    · simp [lexLe, show a.toNat < c.toNat by omega]
    · have he : a.toNat = c.toNat := by omega
      simp [lexLe, he, lexLe_trans as bs cs gl gl']

theorem lexLe_antisymm : ∀ a b : List Char,
    lexLe a b = true → lexLe b a = true → a = b
  | [], [], _, _ => rfl
  | [], _ :: _, _, h => by simp [lexLe] at h
  | _ :: _, [], h, _ => by simp [lexLe] at h
  | a :: as, b :: bs, h1, h2 => by
    rcases lexLe_cases h1 with g | ⟨ge, gl⟩ <;> rcases lexLe_cases h2 with g' | ⟨ge', gl'⟩
    · omega
    · omega
    · omega
    · rw [char_toNat_inj ge, lexLe_antisymm as bs gl gl']

theorem strLe_total (a b : String) : strLe a b = true ∨ strLe b a = true :=
  lexLe_total a.data b.data

theorem strLe_trans {a b c : String}
    (h1 : strLe a b = true) (h2 : strLe b c = true) : strLe a c = true :=
  lexLe_trans a.data b.data c.data h1 h2

theorem strLe_antisymm {a b : String}
    (h1 : strLe a b = true) (h2 : strLe b a = true) : a = b := by
  have h := lexLe_antisymm a.data b.data h1 h2
  cases a; cases b; exact congrArg String.mk h

theorem insortKey_perm (p : String × Option String) :
    ∀ d : Doc, (insortKey p d).Perm (p :: d)
  | [] => List.Perm.refl _
  | q :: rest => by
    by_cases h : strLe p.1 q.1 = true
    · simp [insortKey, h]
    · rw [insortKey, if_neg h]
      exact ((insortKey_perm p rest).cons q).trans (List.Perm.swap p q rest)

theorem mem_insortKey {p q : String × Option String} {d : Doc} :
    q ∈ insortKey p d ↔ q = p ∨ q ∈ d := by
  rw [(insortKey_perm p d).mem_iff, List.mem_cons]

theorem insortKey_sorted (p : String × Option String) :
    ∀ d : Doc, KeySorted d → KeySorted (insortKey p d)
  | [], _ => by simp [insortKey, KeySorted]
  | q :: rest, h => by
    rw [KeySorted, List.pairwise_cons] at h
    by_cases hle : strLe p.1 q.1 = true
    · show KeySorted (if strLe p.1 q.1 = true then p :: q :: rest else _)
      rw [if_pos hle]
      rw [KeySorted, List.pairwise_cons]
      refine ⟨?_, List.Pairwise.cons h.1 h.2⟩
      intro y hy
      rcases List.mem_cons.mp hy with rfl | hy'
      · exact hle
      · exact strLe_trans hle (h.1 y hy')
    · have hq : strLe q.1 p.1 = true := (strLe_total p.1 q.1).resolve_left hle
      show KeySorted (if strLe p.1 q.1 = true then _ else q :: insortKey p rest)
      rw [if_neg hle]
      rw [KeySorted, List.pairwise_cons]
      refine ⟨?_, insortKey_sorted p rest h.2⟩
      intro y hy
      rcases mem_insortKey.mp hy with rfl | hy'
      · exact hq
      · exact h.1 y hy'

theorem sortByKey_perm : ∀ d : Doc, (sortByKey d).Perm d
  | [] => List.Perm.refl _
  | p :: rest => by
    show (insortKey p (sortByKey rest)).Perm (p :: rest)
    exact (insortKey_perm p (sortByKey rest)).trans ((sortByKey_perm rest).cons p)

theorem sortByKey_sorted : ∀ d : Doc, KeySorted (sortByKey d)
  | [] => by simp [sortByKey, KeySorted]
  | p :: rest => insortKey_sorted p _ (sortByKey_sorted rest)

theorem sortByKey_eq_of_perm {d₁ d₂ : Doc} (hp : d₁.Perm d₂)
    (hn : (d₁.map Prod.fst).Nodup) : sortByKey d₁ = sortByKey d₂ := by
  have hperm : (sortByKey d₁).Perm (sortByKey d₂) :=
    (sortByKey_perm d₁).trans (hp.trans (sortByKey_perm d₂).symm)
  have hn1 : ((sortByKey d₁).map Prod.fst).Nodup :=
    (((sortByKey_perm d₁).map Prod.fst).nodup_iff).mpr hn
  have hn2 : ((sortByKey d₂).map Prod.fst).Nodup :=
    ((hperm.map Prod.fst).nodup_iff).mp hn1
  have hanti : IsAntisymm (String × Option String)
      (fun x y => strLe x.1 y.1 = true ∧ x.1 ≠ y.1) :=
    ⟨fun _ _ hx hy => absurd (strLe_antisymm hx.1 hy.1) hx.2⟩
  exact @List.eq_of_perm_of_sorted _
    (fun x y => strLe x.1 y.1 = true ∧ x.1 ≠ y.1) hanti _ _ hperm
    (List.Pairwise.and (sortByKey_sorted d₁) (List.pairwise_map.mp hn1))
    (List.Pairwise.and (sortByKey_sorted d₂) (List.pairwise_map.mp hn2))

/-! ### Decimal rendering: correctness and injectivity of the id suffix -/

theorem digitsRevAux_eq :
    ∀ (fuel n : Nat), n ≤ fuel → digitsRevAux fuel n = Nat.digits 10 n
  | 0, 0, _ => by simp [digitsRevAux]
  | 0, _ + 1, h => by omega
  | _ + 1, 0, _ => by simp [digitsRevAux]
  | fuel + 1, n + 1, h => by
    rw [digitsRevAux, Nat.digits_def' (by norm_num : (1 : ℕ) < 10) (Nat.succ_pos n)]
    congr 1
    exact digitsRevAux_eq fuel ((n + 1) / 10) (by
      have := Nat.div_lt_self (Nat.succ_pos n) (by norm_num : 1 < 10)
      omega)

theorem digitsRev_eq (n : Nat) : digitsRev n = Nat.digits 10 n :=
  digitsRevAux_eq n n le_rfl

theorem charDigit_digitChar {d : Nat} (h : d < 10) : charDigit (digitChar d) = d := by
  interval_cases d <;> rfl

theorem digitChar_beq_zero_eq_false {d : Nat} (h : d < 10) (h0 : d ≠ 0) :
    (digitChar d == '0') = false := by
  interval_cases d
  · exact absurd rfl h0
  all_goals decide

theorem dropWhile_zero_replicate_append (k : Nat) (l : List Char) :
    ((List.replicate k '0' ++ l).dropWhile fun c => c == '0') =
      l.dropWhile fun c => c == '0' := by
  induction k with
  | zero => simp
  | succ k ih =>
    rw [List.replicate_succ, List.cons_append, List.dropWhile_cons]
    simp only [beq_self_eq_true, if_true]
    exact ih

theorem unpadDec_padDecChars (w n : Nat) : unpadDec (padDecChars w n) = n := by
  by_cases hn : n = 0
  · subst hn
    rw [unpadDec, padDecChars]
    simp only [digitsRev, digitsRevAux, List.reverse_nil, List.map_nil, if_pos rfl]
    rw [dropWhile_zero_replicate_append]
    simp [List.dropWhile_cons]
  · have hne : Nat.digits 10 n ≠ [] := Nat.digits_ne_nil_iff_ne_zero.mpr hn
    obtain ⟨d0, t, ht⟩ : ∃ d0 t, (Nat.digits 10 n).reverse = d0 :: t := by
      cases hrev : (Nat.digits 10 n).reverse with
      | nil =>
        exfalso
        apply hne
        have := congrArg List.reverse hrev
        simpa using this
      | cons d0 t => exact ⟨d0, t, rfl⟩
    have hdig : ∀ d ∈ d0 :: t, d < 10 := by
      intro d hdm
      have hmem : d ∈ Nat.digits 10 n := by
        have : d ∈ (Nat.digits 10 n).reverse := ht ▸ hdm
        simpa using this
      exact Nat.digits_lt_base (by norm_num) hmem
    have hd0 : d0 ≠ 0 := by
      have hlast := Nat.getLast_digit_ne_zero 10 hn
      have hsome : (Nat.digits 10 n).getLast? = some d0 := by
        rw [← List.head?_reverse, ht]
        rfl
      rw [List.getLast?_eq_getLast _ hne] at hsome
      have := Option.some.inj hsome
      rw [← this]
      exact hlast
    rw [unpadDec, padDecChars]
    simp only [digitsRev_eq, ht, List.map_cons]
    rw [if_neg (by simp)]
    rw [dropWhile_zero_replicate_append]
    rw [List.dropWhile_cons,
      digitChar_beq_zero_eq_false (hdig d0 (by simp)) hd0]
    simp only [Bool.false_eq_true, if_false]
    rw [show (digitChar d0 :: List.map digitChar t) = (d0 :: t).map digitChar from rfl]
    have hmapeq : List.map (charDigit ∘ digitChar) (d0 :: t) = List.map id (d0 :: t) :=
      List.map_congr_left (fun d hdm => charDigit_digitChar (hdig d hdm))
    rw [List.map_map, hmapeq, List.map_id]
    have hback : (d0 :: t).reverse = Nat.digits 10 n := by
      have := congrArg List.reverse ht
      simpa using this.symm
    rw [hback, Nat.ofDigits_digits]

theorem padDecChars_inj {w a b : Nat} (h : padDecChars w a = padDecChars w b) :
    a = b := by
  have := congrArg unpadDec h
  simpa [unpadDec_padDecChars] using this

theorem pad3_inj {a b : Nat} (h : pad3 a = pad3 b) : a = b := by
  have h' : String.mk (padDecChars 3 a) = String.mk (padDecChars 3 b) := h
  injection h' with h''
  exact padDecChars_inj h''

theorem composite_id_inj (K : String) {a b : Nat}
    (h : K ++ "_" ++ pad3 a = K ++ "_" ++ pad3 b) : a = b := by
  have hd := congrArg String.data h
  rw [String.data_append, String.data_append, String.data_append,
    String.data_append] at hd
  have hpq := List.append_cancel_left hd
  exact pad3_inj (String.ext hpq)

/-! ### Characterization of one loop iteration -/

theorem stageWrite_fields (st : PState) (id : String) (doc : Doc) :
    (stageWrite st id doc).log = st.log ++ [.stagedRec id doc] ∧
    (stageWrite st id doc).writes = st.writes + 1 ∧
    (stageWrite st id doc).skips = st.skips ∧
    (stageWrite st id doc).line_counters = st.line_counters := by
  by_cases h : BATCH_SIZE ≤ st.cnt + 1 <;> simp [stageWrite, h]

theorem processRecord_skip (sha1 : String → String) (CY : Nat)
    (readH : Store → String → ReadRes) (col key_field : String)
    (hym : List (String × List (String × Nat))) (st : PState) (rec : Row)
    {yr : Option Nat} (hfy : filterYear col hym rec = .ok yr)
    (hyr : yr = none ∨ yr = some CY)
    {id : String} {rec2 : Row} {lc : List (String × Nat)}
    (hrk : resolveKey col key_field st.line_counters rec = some (id, rec2, lc))
    (hread : readH st.store id = .found (some (sha1_dict sha1 (normalize rec2)))) :
    processRecord sha1 CY readH col key_field hym st rec =
      .ok { st with
            skips := st.skips + 1
            line_counters := lc
            log := st.log ++ [.skippedRec id (buildDoc sha1 rec2)] } := by
  have hany : (yr.any fun y => y != CY) = false := by
    rcases hyr with rfl | rfl <;> simp
  simp only [processRecord, hfy, hany, Bool.false_eq_true, if_false, hrk, hread]
  rfl

theorem processRecord_stale (sha1 : String → String) (CY : Nat)
    (readH : Store → String → ReadRes) (col key_field : String)
    (hym : List (String × List (String × Nat))) (st : PState) (rec : Row)
    {yr : Option Nat} (hfy : filterYear col hym rec = .ok yr)
    (hyr : yr = none ∨ yr = some CY)
    {id : String} {rec2 : Row} {lc : List (String × Nat)}
    (hrk : resolveKey col key_field st.line_counters rec = some (id, rec2, lc))
    {stored : Option String}
    (hread : readH st.store id = .found stored)
    (hne : stored ≠ some (sha1_dict sha1 (normalize rec2))) :
    processRecord sha1 CY readH col key_field hym st rec =
      .ok (stageWrite { st with line_counters := lc } id (buildDoc sha1 rec2)) := by
  have hany : (yr.any fun y => y != CY) = false := by
    rcases hyr with rfl | rfl <;> simp
  simp only [processRecord, hfy, hany, Bool.false_eq_true, if_false, hrk, hread,
    if_neg hne]

theorem processRecord_readErr (sha1 : String → String) (CY : Nat)
    (readH : Store → String → ReadRes) (col key_field : String)
    (hym : List (String × List (String × Nat))) (st : PState) (rec : Row)
    {yr : Option Nat} (hfy : filterYear col hym rec = .ok yr)
    (hyr : yr = none ∨ yr = some CY)
    {id : String} {rec2 : Row} {lc : List (String × Nat)}
    (hrk : resolveKey col key_field st.line_counters rec = some (id, rec2, lc))
    (hread : readH st.store id = .apiErr) :
    processRecord sha1 CY readH col key_field hym st rec =
      .ok (stageWrite { st with line_counters := lc } id (buildDoc sha1 rec2)) := by
  have hany : (yr.any fun y => y != CY) = false := by
    rcases hyr with rfl | rfl <;> simp
  simp only [processRecord, hfy, hany, Bool.false_eq_true, if_false, hrk, hread]

/-! ### The `facturad` composite-key loop -/

theorem resolveKey_facturad (K : String) (lc : List (String × Nat)) (rec : Row)
    (hK : pyStrip (pyStr (rec.get "NO_FAC" (.vstr ""))) = K) (hKne : K ≠ "") :
    resolveKey "facturad" "NO_FAC" lc rec =
      some (K ++ "_" ++ pad3 ((lc.lookup K).getD 0 + 1),
        rec.setItem "ROW_ID" (.vint (((lc.lookup K).getD 0 + 1 : Nat))),
        dictInsert K ((lc.lookup K).getD 0 + 1) lc) := by
  simp only [resolveKey, hK]
  rw [if_neg hKne]
  simp

theorem processRecord_facturad_step (sha1 : String → String) (CY : Nat)
    (hym : List (String × List (String × Nat))) (K : String) (st : PState) (rec : Row)
    (hK : pyStrip (pyStr (rec.get "NO_FAC" (.vstr ""))) = K) (hKne : K ≠ "")
    (hyr : headerYear hym "facturac" K = none ∨ headerYear hym "facturac" K = some CY) :
    ∃ st2 : PState,
      processRecord sha1 CY readHOf "facturad" "NO_FAC" hym st rec = .ok st2 ∧
      (st2.log = st.log ++
          [.skippedRec (K ++ "_" ++ pad3 ((st.line_counters.lookup K).getD 0 + 1))
            (buildDoc sha1 (rec.setItem "ROW_ID"
              (.vint (((st.line_counters.lookup K).getD 0 + 1 : Nat)))))] ∨
        st2.log = st.log ++
          [.stagedRec (K ++ "_" ++ pad3 ((st.line_counters.lookup K).getD 0 + 1))
            (buildDoc sha1 (rec.setItem "ROW_ID"
              (.vint (((st.line_counters.lookup K).getD 0 + 1 : Nat)))))]) ∧
      st2.line_counters =
        dictInsert K ((st.line_counters.lookup K).getD 0 + 1) st.line_counters := by
  have hfy : filterYear "facturad" hym rec = .ok (headerYear hym "facturac" K) :=
    hK ▸ rfl
  have hrk := resolveKey_facturad K st.line_counters rec hK hKne
  set n := (st.line_counters.lookup K).getD 0 + 1 with hn
  set id := K ++ "_" ++ pad3 n with hid
  set rec2 := rec.setItem "ROW_ID" (.vint (n : Nat)) with hrec2
  have hread : readHOf st.store id =
      .found (((getDoc st.store id).bind fun d => d.lookup "h").join) := rfl
  by_cases heq : (((getDoc st.store id).bind fun d => d.lookup "h").join) =
      some (sha1_dict sha1 (normalize rec2))
  · rw [heq] at hread
    refine ⟨_, processRecord_skip sha1 CY readHOf "facturad" "NO_FAC" hym st rec
      hfy hyr hrk hread, Or.inl ?_, ?_⟩ <;> rfl
  · refine ⟨_, processRecord_stale sha1 CY readHOf "facturad" "NO_FAC" hym st rec
      hfy hyr hrk hread heq, Or.inr ?_, ?_⟩
    · exact (stageWrite_fields _ _ _).1
    · exact (stageWrite_fields _ _ _).2.2.2

theorem runLoop_facturad (sha1 : String → String) (CY : Nat)
    (hym : List (String × List (String × Nat))) (K : String) (hKne : K ≠ "")
    (hyr : headerYear hym "facturac" K = none ∨ headerYear hym "facturac" K = some CY) :
    ∀ (rows : List Row) (st : PState),
      (∀ r ∈ rows, pyStrip (pyStr (r.get "NO_FAC" (.vstr ""))) = K) →
      (runLoop sha1 CY readHOf "facturad" "NO_FAC" hym st rows).2 = none ∧
      ∃ evs : List REv,
        (runLoop sha1 CY readHOf "facturad" "NO_FAC" hym st rows).1.log =
          st.log ++ evs ∧
        List.Forall₂ (fun (ev : REv) (ir : Nat × Row) =>
            ev = .skippedRec (K ++ "_" ++ pad3 (ir.1 + 1))
                  (buildDoc sha1 (ir.2.setItem "ROW_ID" (.vint ((ir.1 + 1 : Nat))))) ∨
            ev = .stagedRec (K ++ "_" ++ pad3 (ir.1 + 1))
                  (buildDoc sha1 (ir.2.setItem "ROW_ID" (.vint ((ir.1 + 1 : Nat))))))
          evs (rows.enumFrom ((st.line_counters.lookup K).getD 0))
  | [], st, _ => ⟨rfl, [], by simp [runLoop], by
      rw [show (List.enumFrom ((st.line_counters.lookup K).getD 0) ([] : List Row)) =
        ([] : List (Nat × Row)) from rfl]
      exact List.Forall₂.nil⟩
  | rec :: rest, st, hall => by
    obtain ⟨st2, hst2, hlog, hlc⟩ :=
      processRecord_facturad_step sha1 CY hym K st rec
        (hall rec (by simp)) hKne hyr
    have hrun : runLoop sha1 CY readHOf "facturad" "NO_FAC" hym st (rec :: rest) =
        runLoop sha1 CY readHOf "facturad" "NO_FAC" hym st2 rest := by
      rw [runLoop, hst2]
    obtain ⟨hnone, evs', hlog', hfa⟩ :=
      runLoop_facturad sha1 CY hym K hKne hyr rest st2
        (fun r hr => hall r (by simp [hr]))
    set m := (st.line_counters.lookup K).getD 0 with hm
    have hcount : (st2.line_counters.lookup K).getD 0 = m + 1 := by
      rw [hlc, lookup_dictInsert_self]
      rfl
    rw [hrun]
    refine ⟨hnone, ?_⟩
    rcases hlog with hlog | hlog
    · refine ⟨REv.skippedRec (K ++ "_" ++ pad3 (m + 1))
        (buildDoc sha1 (rec.setItem "ROW_ID" (.vint ((m + 1 : Nat))))) :: evs', ?_, ?_⟩
      · rw [hlog', hlog, List.append_assoc]
        rfl
      · rw [List.enumFrom_cons]
        exact List.Forall₂.cons (Or.inl rfl) (by rwa [← hcount])
    · refine ⟨REv.stagedRec (K ++ "_" ++ pad3 (m + 1))
        (buildDoc sha1 (rec.setItem "ROW_ID" (.vint ((m + 1 : Nat))))) :: evs', ?_, ?_⟩
      · rw [hlog', hlog, List.append_assoc]
        rfl
      · rw [List.enumFrom_cons]
        exact List.Forall₂.cons (Or.inr rfl) (by rwa [← hcount])

/-! ### Normalization under distinct lowered keys -/

theorem lookup_append_of_not_mem {β : Type} {q : String} :
    ∀ {l1 : List (String × β)} (l2 : List (String × β)),
      q ∉ l1.map Prod.fst → (l1 ++ l2).lookup q = l2.lookup q
  | [], _, _ => rfl
  | (a, b) :: rest, l2, h => by
    simp only [List.map_cons, List.mem_cons] at h
    push_neg at h
    rw [List.cons_append, lookup_cons_ne b _ h.1]
    exact lookup_append_of_not_mem l2 h.2

theorem lookup_isSome_of_mem {β : Type} {q : String} :
    ∀ {d : List (String × β)}, q ∈ d.map Prod.fst → ∃ v, d.lookup q = some v
  | [], h => absurd h (by simp)
  | (a, b) :: rest, h => by
    by_cases hq : q = a
    · exact ⟨b, by rw [hq]; exact lookup_cons_self a b rest⟩
    · have hmem : q ∈ rest.map Prod.fst := by
        rw [List.map_cons] at h
        rcases List.mem_cons.mp h with h1 | h1
        · exact absurd h1 hq
        · exact h1
      obtain ⟨v, hv⟩ := lookup_isSome_of_mem hmem
      exact ⟨v, by rw [lookup_cons_ne b _ hq]; exact hv⟩

theorem normalize_eq_of_nodup (r : Row)
    (hn : (r.fields.map fun kv => pyLower kv.1).Nodup) :
    normalize r = r.fields.map fun kv => (pyLower kv.1, toStrOpt kv.2) := by
  rw [normalize, pyDict_eq_self]
  · rw [List.map_map]
    rfl
  · simpa [List.map_map, Function.comp] using hn

theorem buildDoc_eq_append (sha1 : String → String) (r : Row)
    (hh : "h" ∉ (normalize r).map Prod.fst) :
    buildDoc sha1 r = normalize r ++ [("h", some (sha1_dict sha1 (normalize r)))] :=
  dictInsert_of_not_mem _ hh

/-! ### The claims -/

/-- C1: idempotent skip.  For any run state — hence however many times the run is
repeated — a record that passes the year filter, resolves to a document id, and
whose stored fingerprint equals the newly computed fingerprint is counted as
skipped and stages no write: the store, the pending batch, the write counter and
the batch counter are all untouched (only the skip counter, the per-key line
counters, and the ghost trace move). -/
theorem C1_equal_fingerprint_skips (sha1 : String → String) (CY : Nat)
    (readH : Store → String → ReadRes) (col key_field : String)
    (hym : List (String × List (String × Nat))) (st : PState) (rec : Row)
    (yr : Option Nat) (hfy : filterYear col hym rec = .ok yr)
    (hyr : yr = none ∨ yr = some CY)
    (id : String) (rec2 : Row) (lc : List (String × Nat))
    (hrk : resolveKey col key_field st.line_counters rec = some (id, rec2, lc))
    (hread : readH st.store id = .found (some (sha1_dict sha1 (normalize rec2)))) :
    processRecord sha1 CY readH col key_field hym st rec =
      .ok { st with
            skips := st.skips + 1
            line_counters := lc
            log := st.log ++ [.skippedRec id (buildDoc sha1 rec2)] } :=
  processRecord_skip sha1 CY readH col key_field hym st rec hfy hyr hrk hread

/-- Witness for C1 at a concrete record, table, and read result. -/
theorem C1_equal_fingerprint_skips_witness :
    processRecord (fun _ => "H") 2025 (fun _ _ => ReadRes.found (some "H")) "producto"
        "CVE_PROD" []
        { store := [], batch := [], writes := 0, skips := 0, cnt := 0,
          line_counters := [], log := [] }
        ⟨[("CVE_PROD", .vstr "P1")]⟩ =
      .ok { store := [], batch := [], writes := 0, skips := 1, cnt := 0,
            line_counters := [],
            log := [.skippedRec "P1"
              (buildDoc (fun _ => "H") ⟨[("CVE_PROD", .vstr "P1")]⟩)] } :=
  C1_equal_fingerprint_skips (fun _ => "H") 2025 (fun _ _ => ReadRes.found (some "H"))
    "producto" "CVE_PROD" []
    { store := [], batch := [], writes := 0, skips := 0, cnt := 0,
      line_counters := [], log := [] }
    ⟨[("CVE_PROD", .vstr "P1")]⟩ none rfl (Or.inl rfl)
    "P1" ⟨[("CVE_PROD", .vstr "P1")]⟩ [] rfl rfl

/-- C2 counterexample: with the fingerprint read failing with `GoogleAPICallError`
on every record of a two-row `producto` table, both records are *written*
(writes = 2, skips = 0) and the scan continues — the failing records are not
"treated as skipped" as the claim states. -/
theorem C2_counterexample :
    (process_file (fun _ => "H") 2025 (fun _ _ => ReadRes.apiErr) "producto"
        ⟨["CVE_PROD"], [⟨[("CVE_PROD", .vstr "P1")]⟩, ⟨[("CVE_PROD", .vstr "P2")]⟩]⟩
        [] []).writes = 2 ∧
    (process_file (fun _ => "H") 2025 (fun _ _ => ReadRes.apiErr) "producto"
        ⟨["CVE_PROD"], [⟨[("CVE_PROD", .vstr "P1")]⟩, ⟨[("CVE_PROD", .vstr "P2")]⟩]⟩
        [] []).skips = 0 ∧
    (process_file (fun _ => "H") 2025 (fun _ _ => ReadRes.apiErr) "producto"
        ⟨["CVE_PROD"], [⟨[("CVE_PROD", .vstr "P1")]⟩, ⟨[("CVE_PROD", .vstr "P2")]⟩]⟩
        [] []).aborted = none :=
  ⟨rfl, rfl, rfl⟩

/-- C2 (amended): a per-record fingerprint-read error of the kind the code
anticipates (`GoogleAPICallError`) does not abort the scan, and the record is
treated as having *no prior fingerprint*: it is staged as a write and counted
written, not skipped.  (An error the code does not anticipate, or a commit
failure after retries, instead aborts the rest of the table.) -/
theorem C2_read_error_written_not_skipped (sha1 : String → String) (CY : Nat)
    (readH : Store → String → ReadRes) (col key_field : String)
    (hym : List (String × List (String × Nat))) (st : PState) (rec : Row)
    (yr : Option Nat) (hfy : filterYear col hym rec = .ok yr)
    (hyr : yr = none ∨ yr = some CY)
    (id : String) (rec2 : Row) (lc : List (String × Nat))
    (hrk : resolveKey col key_field st.line_counters rec = some (id, rec2, lc))
    (hread : readH st.store id = .apiErr) :
    processRecord sha1 CY readH col key_field hym st rec =
      .ok (stageWrite { st with line_counters := lc } id (buildDoc sha1 rec2)) ∧
    (stageWrite { st with line_counters := lc } id (buildDoc sha1 rec2)).writes =
      st.writes + 1 ∧
    (stageWrite { st with line_counters := lc } id (buildDoc sha1 rec2)).skips =
      st.skips :=
  ⟨processRecord_readErr sha1 CY readH col key_field hym st rec hfy hyr hrk hread,
   (stageWrite_fields _ _ _).2.1, (stageWrite_fields _ _ _).2.2.1⟩

/-- Witness for C2's amended statement at a concrete record. -/
theorem C2_read_error_written_not_skipped_witness :
    processRecord (fun _ => "H") 2025 (fun _ _ => ReadRes.apiErr) "producto"
        "CVE_PROD" []
        { store := [], batch := [], writes := 0, skips := 0, cnt := 0,
          line_counters := [], log := [] }
        ⟨[("CVE_PROD", .vstr "P1")]⟩ =
      .ok (stageWrite
        { store := [], batch := [], writes := 0, skips := 0, cnt := 0,
          line_counters := [], log := [] }
        "P1" (buildDoc (fun _ => "H") ⟨[("CVE_PROD", .vstr "P1")]⟩)) ∧
    (stageWrite
        { store := [], batch := [], writes := 0, skips := 0, cnt := 0,
          line_counters := [], log := [] }
        "P1" (buildDoc (fun _ => "H") ⟨[("CVE_PROD", .vstr "P1")]⟩)).writes = 0 + 1 ∧
    (stageWrite
        { store := [], batch := [], writes := 0, skips := 0, cnt := 0,
          line_counters := [], log := [] }
        "P1" (buildDoc (fun _ => "H") ⟨[("CVE_PROD", .vstr "P1")]⟩)).skips = 0 :=
  C2_read_error_written_not_skipped (fun _ => "H") 2025 (fun _ _ => ReadRes.apiErr)
    "producto" "CVE_PROD" []
    { store := [], batch := [], writes := 0, skips := 0, cnt := 0,
      line_counters := [], log := [] }
    ⟨[("CVE_PROD", .vstr "P1")]⟩ none rfl (Or.inl rfl)
    "P1" ⟨[("CVE_PROD", .vstr "P1")]⟩ [] rfl rfl

/-- C3 counterexample: two files, the first of which raises `ResourceExhausted`.
`main` pauses (30 s) and then processes the SECOND file; the interrupted first
table is never resumed within the run — contradicting "resumes processing at the
same position". -/
theorem C3_counterexample :
    mainLoop (fun f => if f = "facturad.dbf" then .raisedQuota else .completed)
        ["facturad.dbf", "clientes.dbf"] =
      [.quotaPause "facturad.dbf", .done "clientes.dbf"] ∧
    MainEv.done "facturad.dbf" ∉
      mainLoop (fun f => if f = "facturad.dbf" then .raisedQuota else .completed)
        ["facturad.dbf", "clientes.dbf"] :=
  ⟨rfl, by decide⟩

/-- C3 (amended): a quota-exhaustion signal escaping a table's processing causes
the fixed 30-second pause, after which the run continues with the NEXT file; the
interrupted table is abandoned for this run, not resumed at its interruption
point.  (Only `safe_commit` retries in place, up to 3 attempts with growing
waits, and an exhausted retry aborts the table.) -/
theorem C3_quota_pause_then_next_file (run : String → ProcOutcome)
    (f : String) (fs : List String) (h : run f = .raisedQuota) :
    mainLoop run (f :: fs) = .quotaPause f :: mainLoop run fs := by
  rw [mainLoop, h]

/-- Witness for C3's amended statement at a concrete file list. -/
theorem C3_quota_pause_then_next_file_witness :
    mainLoop (fun f => if f = "facturad.dbf" then .raisedQuota else .completed)
        ("facturad.dbf" :: ["clientes.dbf"]) =
      .quotaPause "facturad.dbf" ::
        mainLoop (fun f => if f = "facturad.dbf" then .raisedQuota else .completed)
          ["clientes.dbf"] :=
  C3_quota_pause_then_next_file
    (fun f => if f = "facturad.dbf" then .raisedQuota else .completed)
    "facturad.dbf" ["clientes.dbf"] (by decide)

/-- C6 (code bug): `extract_year` is not total.  A `datetime.date` value — the
shape dbfread returns for DBF date columns — and every non-empty date string
raise `TypeError` out of the malformed `isinstance` tuple instead of returning a
year; only `None`, blank values, and `datetime` instances return normally. -/
theorem C6_extract_year_raises_on_dates :
    extract_year (.vdate 2025 3 1) = .error .typeErr ∧
    extract_year (.vstr "2025-03-01") = .error .typeErr ∧
    extract_year (.vdatetime 2025 3 1 0 0 0) = .ok (some 2025) ∧
    extract_year .vnone = .ok none ∧
    extract_year (.vstr "  ") = .ok none :=
  ⟨rfl, rfl, rfl, rfl, rfl⟩

/-- C8 (code bug): a `facturac` record whose own date field holds a non-empty
unparsable string is NOT included: `extract_year` raises `TypeError`, the
table-level handler catches it, and the whole table scan aborts with zero
records processed — contradicting the fail-open contract for unparsable dates.
(The header-index-miss half of the contract does hold; the own-date half
crashes.) -/
theorem C8_unparsable_date_aborts_table :
    process_file (fun _ => "H") 2025 readHOf "facturac"
        ⟨["NO_FAC", "FALTA_FAC"],
         [⟨[("NO_FAC", .vstr "F1"), ("FALTA_FAC", .vstr "pending")]⟩]⟩ [] [] =
      { writes := 0, skips := 0, store := [], log := [], aborted := some .typeErr,
        emptySkip := false } :=
  rfl

/-- C10: for a table with no entry in `KEY_FIELD`, the key field silently
defaults to the table's first field name upper-cased, and the document identity
of a record is then the trimmed value of that first column — no startup
validation error occurs. -/
theorem C10_default_key_field_first_column (col f0 : String) (fns : List String)
    (rec : Row) (lc : List (String × Nat))
    (hnc : KEY_FIELD.lookup col = none)
    (hne : pyStrip (pyStr (rec.get (pyUpper f0) (.vstr ""))) ≠ "") :
    keyFieldFor col (f0 :: fns) = pyUpper f0 ∧
    resolveKey col (keyFieldFor col (f0 :: fns)) lc rec =
      some (pyStrip (pyStr (rec.get (pyUpper f0) (.vstr ""))), rec, lc) := by
  have hkf : keyFieldFor col (f0 :: fns) = pyUpper f0 := by
    rw [keyFieldFor, hnc]
    rfl
  refine ⟨hkf, ?_⟩
  have hnf : ¬(col = "facturad" ∨ col = "creditod") := by
    rintro (rfl | rfl) <;> exact absurd hnc (by decide)
  rw [hkf, resolveKey]
  rw [if_neg hne, if_neg hnf]

/-- Witness for C10 at a concrete unconfigured table. -/
theorem C10_default_key_field_first_column_witness :
    keyFieldFor "widgets" ("id" :: ["name"]) = pyUpper "id" ∧
    resolveKey "widgets" (keyFieldFor "widgets" ("id" :: ["name"])) []
        ⟨[("ID", .vstr " W1 ")]⟩ =
      some (pyStrip (pyStr ((⟨[("ID", .vstr " W1 ")]⟩ : Row).get (pyUpper "id")
        (.vstr ""))), ⟨[("ID", .vstr " W1 ")]⟩, []) :=
  C10_default_key_field_first_column "widgets" "id" ["name"]
    ⟨[("ID", .vstr " W1 ")]⟩ [] rfl (by decide)

/-- C9: fingerprint canonicalization.  For two raw rows that hold the same
field/value pairs in any two orders (with distinct lowered field names, as DBF
schemas guarantee), the fingerprint of the normalized record is identical —
serialization sorts field names; and the stored fingerprint field `h` is computed
over exactly the non-`h` fields of the final document (the record itself carrying
no `h` column). -/
theorem C9_fingerprint_order_invariant_excludes_h (sha1 : String → String)
    (r1 r2 : Row) (hperm : r1.fields.Perm r2.fields)
    (hnd : (r1.fields.map fun kv => pyLower kv.1).Nodup)
    (hh : "h" ∉ r1.fields.map fun kv => pyLower kv.1) :
    sha1_dict sha1 (normalize r1) = sha1_dict sha1 (normalize r2) ∧
    (buildDoc sha1 r1).lookup "h" =
      some (some (sha1_dict sha1
        ((buildDoc sha1 r1).filter fun kv => kv.1 != "h"))) := by
  have hnd2 : (r2.fields.map fun kv => pyLower kv.1).Nodup :=
    ((hperm.map fun kv => pyLower kv.1).nodup_iff).mp hnd
  have hn1 := normalize_eq_of_nodup r1 hnd
  have hn2 := normalize_eq_of_nodup r2 hnd2
  have hhn : "h" ∉ (normalize r1).map Prod.fst := by
    rw [hn1]
    simpa [List.map_map, Function.comp] using hh
  constructor
  · rw [sha1_dict, sha1_dict, jsonDumpsSorted, jsonDumpsSorted]
    have hpermN : (normalize r1).Perm (normalize r2) := by
      rw [hn1, hn2]
      exact hperm.map _
    rw [sortByKey_eq_of_perm hpermN (normalize_keys_nodup r1)]
  · have hfil : ((buildDoc sha1 r1).filter fun kv => kv.1 != "h") = normalize r1 := by
      rw [buildDoc_eq_append sha1 r1 hhn, List.filter_append]
      have h1 : (normalize r1).filter (fun kv => kv.1 != "h") = normalize r1 := by
        rw [List.filter_eq_self]
        intro kv hkv
        have : kv.1 ≠ "h" := fun he => hhn (he ▸ List.mem_map_of_mem Prod.fst hkv)
        simpa using this
      rw [h1]
      simp
    rw [hfil, buildDoc_eq_append sha1 r1 hhn, lookup_append_of_not_mem _ hhn,
      lookup_cons_self]

/-- Witness for C9 at two concrete permuted rows. -/
theorem C9_fingerprint_order_invariant_excludes_h_witness :
    sha1_dict (fun s => s) (normalize ⟨[("A", .vstr "1"), ("B", .vnone)]⟩) =
      sha1_dict (fun s => s) (normalize ⟨[("B", .vnone), ("A", .vstr "1")]⟩) ∧
    (buildDoc (fun s => s) ⟨[("A", .vstr "1"), ("B", .vnone)]⟩).lookup "h" =
      some (some (sha1_dict (fun s => s)
        ((buildDoc (fun s => s) ⟨[("A", .vstr "1"), ("B", .vnone)]⟩).filter
          fun kv => kv.1 != "h"))) :=
  C9_fingerprint_order_invariant_excludes_h (fun s => s)
    ⟨[("A", .vstr "1"), ("B", .vnone)]⟩ ⟨[("B", .vnone), ("A", .vstr "1")]⟩
    (by decide) (by decide) (by decide)

/-- C4 counterexample: a stored `producto` document carries a field `legacy` the
new record lacks and a stale fingerprint.  After the run commits, the document
still contains `legacy` — the staged write merged rather than fully replacing. -/
theorem C4_counterexample :
    (process_file (fun _ => "NEWH") 2025 readHOf "producto"
        ⟨["CVE_PROD", "DESC"], [⟨[("CVE_PROD", .vstr "P1"), ("DESC", .vstr "w")]⟩]⟩
        [] [("P1", [("legacy", some "old"), ("h", some "zz")])]).store =
      [("P1", [("legacy", some "old"), ("h", some "NEWH"), ("cve_prod", some "P1"),
        ("desc", some "w")])] ∧
    ([("legacy", some "old"), ("h", some "NEWH"), ("cve_prod", some "P1"),
        ("desc", some "w")] : Doc).lookup "legacy" = some (some "old") :=
  ⟨rfl, rfl⟩

/-- C4 (amended): the staged write is `set(..., merge=True)`.  Committing it over
an existing document merges: every field of the new document (its fingerprint
included) takes the new value, while stored fields absent from the new document
keep their old value — they survive the write. -/
theorem C4_write_is_merge_not_replace (st : Store) (id : String) (old d : Doc)
    (hget : getDoc st id = some old) (hnd : (d.map Prod.fst).Nodup) :
    getDoc (storeSet st id d) id = some (mergeDoc old d) ∧
    (∀ k, k ∈ d.map Prod.fst → (mergeDoc old d).lookup k = d.lookup k) ∧
    (∀ k, k ∉ d.map Prod.fst → (mergeDoc old d).lookup k = old.lookup k) := by
  refine ⟨?_, ?_, ?_⟩
  · rw [getDoc_storeSet_self, hget]
  · intro k hk
    rw [lookup_mergeDoc k d old hnd]
    obtain ⟨v, hv⟩ := lookup_isSome_of_mem hk
    rw [hv]
    rfl
  · intro k hk
    rw [lookup_mergeDoc k d old hnd, lookup_eq_none_of_not_mem hk]
    rfl

/-- Witness for C4's amended statement at a concrete store and documents. -/
theorem C4_write_is_merge_not_replace_witness :
    getDoc (storeSet [("P1", [("legacy", some "old")])] "P1"
        [("h", some "H")]) "P1" =
      some (mergeDoc [("legacy", some "old")] [("h", some "H")]) ∧
    (mergeDoc [("legacy", some "old")] [("h", some "H")]).lookup "h" =
      ([("h", some "H")] : Doc).lookup "h" ∧
    (mergeDoc [("legacy", some "old")] [("h", some "H")]).lookup "legacy" =
      ([("legacy", some "old")] : Doc).lookup "legacy" :=
  ⟨(C4_write_is_merge_not_replace [("P1", [("legacy", some "old")])] "P1"
      [("legacy", some "old")] [("h", some "H")] rfl (by decide)).1,
   (C4_write_is_merge_not_replace [("P1", [("legacy", some "old")])] "P1"
      [("legacy", some "old")] [("h", some "H")] rfl (by decide)).2.1 "h" (by decide),
   (C4_write_is_merge_not_replace [("P1", [("legacy", some "old")])] "P1"
      [("legacy", some "old")] [("h", some "H")] rfl (by decide)).2.2 "legacy"
      (by decide)⟩

theorem process_file_of_runLoop (sha1 : String → String) (CY : Nat)
    (readH : Store → String → ReadRes) (col : String) (fns : List String)
    (rows : List Row) (hym : List (String × List (String × Nat))) (store0 : Store)
    (st2 : PState) (hne : rows ≠ [])
    (hrl : runLoop sha1 CY readH col (keyFieldFor col fns) hym
      { store := store0, batch := [], writes := 0, skips := 0, cnt := 0,
        line_counters := [], log := [] } (recordsIterator col rows) = (st2, none)) :
    process_file sha1 CY readH col ⟨fns, rows⟩ hym store0 =
      { writes := st2.writes, skips := st2.skips
        store := if 0 < st2.cnt then applyBatch st2.store st2.batch else st2.store
        log := st2.log, aborted := none, emptySkip := false } := by
  simp only [process_file]
  rw [if_neg hne, hrl]

/-- C5 counterexample: an `existe` table with three rows sharing the key `P1`,
two of which pass the `LUGAR == "LINEA"` predicate.  Both surviving rows are
processed and staged (writes = 2) — there is no per-key collapse — even though
the final store holds a single document for the key. -/
theorem C5_counterexample :
    (process_file (fun _ => "H") 2025 readHOf "existe"
        ⟨["CVE_PROD", "LUGAR", "DESC"],
         [⟨[("CVE_PROD", .vstr "P1"), ("LUGAR", .vstr "LINEA"), ("DESC", .vstr "a")]⟩,
          ⟨[("CVE_PROD", .vstr "P1"), ("LUGAR", .vstr "BODEGA"), ("DESC", .vstr "b")]⟩,
          ⟨[("CVE_PROD", .vstr "P1"), ("LUGAR", .vstr "LINEA"), ("DESC", .vstr "c")]⟩]⟩
        [] []).writes = 2 ∧
    (process_file (fun _ => "H") 2025 readHOf "existe"
        ⟨["CVE_PROD", "LUGAR", "DESC"],
         [⟨[("CVE_PROD", .vstr "P1"), ("LUGAR", .vstr "LINEA"), ("DESC", .vstr "a")]⟩,
          ⟨[("CVE_PROD", .vstr "P1"), ("LUGAR", .vstr "BODEGA"), ("DESC", .vstr "b")]⟩,
          ⟨[("CVE_PROD", .vstr "P1"), ("LUGAR", .vstr "LINEA"), ("DESC", .vstr "c")]⟩]⟩
        [] []).store =
      [("P1", [("cve_prod", some "P1"), ("lugar", some "LINEA"), ("desc", some "c"),
        ("h", some "H")])] :=
  ⟨rfl, rfl⟩

/-- C5 (amended): for `existe` the location predicate is applied before all other
steps, but surviving rows are NOT collapsed per key: each surviving row is
processed and staged individually (two same-key rows give two staged writes and
writes = 2), all under the same document id, and the commit applies the staged
writes in order — so the final store holds exactly one document for the key,
with the last occurrence's fields merged over the first. -/
theorem C5_no_per_key_collapse_last_wins (sha1 : String → String) (CY : Nat)
    (fns : List String) (r1 r2 : Row) (k : String)
    (hym : List (String × List (String × Nat)))
    (hp1 : pyUpper (pyStrip (pyStr (r1.get "LUGAR" (.vstr "")))) = "LINEA")
    (hp2 : pyUpper (pyStrip (pyStr (r2.get "LUGAR" (.vstr "")))) = "LINEA")
    (hk1 : pyStrip (pyStr (r1.get "CVE_PROD" (.vstr ""))) = k)
    (hk2 : pyStrip (pyStr (r2.get "CVE_PROD" (.vstr ""))) = k)
    (hkne : k ≠ "") :
    process_file sha1 CY readHOf "existe" ⟨fns, [r1, r2]⟩ hym [] =
      { writes := 2, skips := 0
        store := [(k, mergeDoc (buildDoc sha1 r1) (buildDoc sha1 r2))]
        log := [.stagedRec k (buildDoc sha1 r1), .stagedRec k (buildDoc sha1 r2)]
        aborted := none, emptySkip := false } := by
  have hrk1 : resolveKey "existe" "CVE_PROD" [] r1 = some (k, r1, []) := by
    simp only [resolveKey, hk1]
    rw [if_neg hkne]
    simp
  have hrk2 : resolveKey "existe" "CVE_PROD" [] r2 = some (k, r2, []) := by
    simp only [resolveKey, hk2]
    rw [if_neg hkne]
    simp
  have e1 : processRecord sha1 CY readHOf "existe" "CVE_PROD" hym
      { store := [], batch := [], writes := 0, skips := 0, cnt := 0,
        line_counters := [], log := [] } r1 =
      .ok { store := [], batch := [(k, buildDoc sha1 r1)], writes := 1, skips := 0,
            cnt := 1, line_counters := [],
            log := [.stagedRec k (buildDoc sha1 r1)] } := by
    rw [processRecord_stale sha1 CY readHOf "existe" "CVE_PROD" hym
      { store := [], batch := [], writes := 0, skips := 0, cnt := 0,
        line_counters := [], log := [] } r1 rfl (Or.inl rfl) hrk1 rfl
      (by simp [getDoc])]
    norm_num [stageWrite, BATCH_SIZE]
  have e2 : processRecord sha1 CY readHOf "existe" "CVE_PROD" hym
      { store := [], batch := [(k, buildDoc sha1 r1)], writes := 1, skips := 0,
        cnt := 1, line_counters := [],
        log := [.stagedRec k (buildDoc sha1 r1)] } r2 =
      .ok { store := [], batch := [(k, buildDoc sha1 r1), (k, buildDoc sha1 r2)],
            writes := 2, skips := 0, cnt := 2, line_counters := [],
            log := [.stagedRec k (buildDoc sha1 r1),
              .stagedRec k (buildDoc sha1 r2)] } := by
    rw [processRecord_stale sha1 CY readHOf "existe" "CVE_PROD" hym
      { store := [], batch := [(k, buildDoc sha1 r1)], writes := 1, skips := 0,
        cnt := 1, line_counters := [],
        log := [.stagedRec k (buildDoc sha1 r1)] } r2 rfl (Or.inl rfl) hrk2 rfl
      (by simp [getDoc])]
    norm_num [stageWrite, BATCH_SIZE]
  have hiter : recordsIterator "existe" [r1, r2] = [r1, r2] := by
    rw [recordsIterator, if_pos rfl, List.filter_eq_self.mpr]
    intro a ha
    rcases List.mem_cons.mp ha with rfl | ha'
    · simp [hp1]
    · rcases List.mem_cons.mp ha' with rfl | h2
      · simp [hp2]
      · exact absurd h2 (List.not_mem_nil a)
  have hrl : runLoop sha1 CY readHOf "existe" "CVE_PROD" hym
      { store := [], batch := [], writes := 0, skips := 0, cnt := 0,
        line_counters := [], log := [] } [r1, r2] =
      ({ store := [], batch := [(k, buildDoc sha1 r1), (k, buildDoc sha1 r2)],
         writes := 2, skips := 0, cnt := 2, line_counters := [],
         log := [.stagedRec k (buildDoc sha1 r1),
           .stagedRec k (buildDoc sha1 r2)] }, none) := by
    simp only [runLoop, e1, e2]
  rw [process_file_of_runLoop sha1 CY readHOf "existe" fns [r1, r2] hym []
    { store := [], batch := [(k, buildDoc sha1 r1), (k, buildDoc sha1 r2)],
      writes := 2, skips := 0, cnt := 2, line_counters := [],
      log := [.stagedRec k (buildDoc sha1 r1), .stagedRec k (buildDoc sha1 r2)] }
    (by simp)
    (by rw [show keyFieldFor "existe" fns = "CVE_PROD" from rfl, hiter]; exact hrl)]
  simp [applyBatch, storeSet, getDoc, dictInsert, List.lookup]

/-- Witness for C5's amended statement at two concrete same-key rows. -/
theorem C5_no_per_key_collapse_last_wins_witness :
    process_file (fun _ => "H") 2025 readHOf "existe"
        ⟨["CVE_PROD", "LUGAR", "DESC"],
         [⟨[("CVE_PROD", .vstr "P1"), ("LUGAR", .vstr "LINEA"), ("DESC", .vstr "a")]⟩,
          ⟨[("CVE_PROD", .vstr "P1"), ("LUGAR", .vstr "LINEA"), ("DESC", .vstr "b")]⟩]⟩
        [] [] =
      { writes := 2, skips := 0
        store := [("P1", mergeDoc
          (buildDoc (fun _ => "H")
            ⟨[("CVE_PROD", .vstr "P1"), ("LUGAR", .vstr "LINEA"), ("DESC", .vstr "a")]⟩)
          (buildDoc (fun _ => "H")
            ⟨[("CVE_PROD", .vstr "P1"), ("LUGAR", .vstr "LINEA"), ("DESC", .vstr "b")]⟩))]
        log := [.stagedRec "P1" (buildDoc (fun _ => "H")
            ⟨[("CVE_PROD", .vstr "P1"), ("LUGAR", .vstr "LINEA"), ("DESC", .vstr "a")]⟩),
          .stagedRec "P1" (buildDoc (fun _ => "H")
            ⟨[("CVE_PROD", .vstr "P1"), ("LUGAR", .vstr "LINEA"), ("DESC", .vstr "b")]⟩)]
        aborted := none, emptySkip := false } :=
  C5_no_per_key_collapse_last_wins (fun _ => "H") 2025 ["CVE_PROD", "LUGAR", "DESC"]
    ⟨[("CVE_PROD", .vstr "P1"), ("LUGAR", .vstr "LINEA"), ("DESC", .vstr "a")]⟩
    ⟨[("CVE_PROD", .vstr "P1"), ("LUGAR", .vstr "LINEA"), ("DESC", .vstr "b")]⟩
    "P1" [] (by decide) (by decide) (by decide) (by decide) (by decide)

/-- C7: detail sequencing.  For a `facturad` table whose rows all carry the same
non-empty trimmed foreign key `K` and pass the temporal filter, the run aborts
nowhere; the i-th row (0-based) is resolved — whether then staged or skipped —
exactly under the composite document id `K ++ "_" ++ pad3 (i+1)` (zero-padded,
in row order), with the sequence number written back into the record as
`ROW_ID`; and distinct sequence numbers give distinct document ids. -/
theorem C7_detail_sequencing (sha1 : String → String) (CY : Nat)
    (hym : List (String × List (String × Nat))) (K : String) (hKne : K ≠ "")
    (fns : List String) (rows : List Row) (store0 : Store)
    (hall : ∀ r ∈ rows, pyStrip (pyStr (r.get "NO_FAC" (.vstr ""))) = K)
    (hyr : headerYear hym "facturac" K = none ∨
      headerYear hym "facturac" K = some CY) :
    (process_file sha1 CY readHOf "facturad" ⟨fns, rows⟩ hym store0).aborted =
      none ∧
    List.Forall₂ (fun (ev : REv) (ir : Nat × Row) =>
        ev = .skippedRec (K ++ "_" ++ pad3 (ir.1 + 1))
              (buildDoc sha1 (ir.2.setItem "ROW_ID" (.vint ((ir.1 + 1 : Nat))))) ∨
        ev = .stagedRec (K ++ "_" ++ pad3 (ir.1 + 1))
              (buildDoc sha1 (ir.2.setItem "ROW_ID" (.vint ((ir.1 + 1 : Nat))))))
      (process_file sha1 CY readHOf "facturad" ⟨fns, rows⟩ hym store0).log
      rows.enum ∧
    (∀ i j : Nat, K ++ "_" ++ pad3 (i + 1) = K ++ "_" ++ pad3 (j + 1) → i = j) := by
  have hinj : ∀ i j : Nat,
      K ++ "_" ++ pad3 (i + 1) = K ++ "_" ++ pad3 (j + 1) → i = j :=
    fun i j h => Nat.succ_injective (composite_id_inj K h)
  by_cases hrows : rows = []
  · subst hrows
    exact ⟨rfl, List.Forall₂.nil, hinj⟩
  · obtain ⟨hnone, evs, hlog, hfa⟩ :=
      runLoop_facturad sha1 CY hym K hKne hyr rows
        { store := store0, batch := [], writes := 0, skips := 0, cnt := 0,
          line_counters := [], log := [] } hall
    have hrl : runLoop sha1 CY readHOf "facturad" "NO_FAC" hym
        { store := store0, batch := [], writes := 0, skips := 0, cnt := 0,
          line_counters := [], log := [] } rows =
        ((runLoop sha1 CY readHOf "facturad" "NO_FAC" hym
          { store := store0, batch := [], writes := 0, skips := 0, cnt := 0,
            line_counters := [], log := [] } rows).1, none) := by
      rw [← hnone]
    have hpf := process_file_of_runLoop sha1 CY readHOf "facturad" fns rows hym
      store0 _ hrows
      (by
        rw [show keyFieldFor "facturad" fns = "NO_FAC" from rfl,
          show recordsIterator "facturad" rows = rows from by
            rw [recordsIterator, if_neg (by decide)]]
        exact hrl)
    rw [hpf]
    refine ⟨rfl, ?_, hinj⟩
    show List.Forall₂ _ (runLoop sha1 CY readHOf "facturad" "NO_FAC" hym
      { store := store0, batch := [], writes := 0, skips := 0, cnt := 0,
        line_counters := [], log := [] } rows).1.log rows.enum
    rw [hlog]
    exact hfa

/-- Witness for C7 at a concrete two-row `facturad` table. -/
theorem C7_detail_sequencing_witness :
    (process_file (fun _ => "H") 2025 readHOf "facturad"
        ⟨["NO_FAC", "QTY"],
         [⟨[("NO_FAC", .vstr "A100"), ("QTY", .vint 1)]⟩,
          ⟨[("NO_FAC", .vstr "A100"), ("QTY", .vint 2)]⟩]⟩ [] []).aborted = none ∧
    List.Forall₂ (fun (ev : REv) (ir : Nat × Row) =>
        ev = .skippedRec ("A100" ++ "_" ++ pad3 (ir.1 + 1))
              (buildDoc (fun _ => "H")
                (ir.2.setItem "ROW_ID" (.vint ((ir.1 + 1 : Nat))))) ∨
        ev = .stagedRec ("A100" ++ "_" ++ pad3 (ir.1 + 1))
              (buildDoc (fun _ => "H")
                (ir.2.setItem "ROW_ID" (.vint ((ir.1 + 1 : Nat))))))
      (process_file (fun _ => "H") 2025 readHOf "facturad"
        ⟨["NO_FAC", "QTY"],
         [⟨[("NO_FAC", .vstr "A100"), ("QTY", .vint 1)]⟩,
          ⟨[("NO_FAC", .vstr "A100"), ("QTY", .vint 2)]⟩]⟩ [] []).log
      ([⟨[("NO_FAC", .vstr "A100"), ("QTY", .vint 1)]⟩,
        ⟨[("NO_FAC", .vstr "A100"), ("QTY", .vint 2)]⟩] : List Row).enum ∧
    (∀ i j : Nat,
      "A100" ++ "_" ++ pad3 (i + 1) = "A100" ++ "_" ++ pad3 (j + 1) → i = j) :=
  C7_detail_sequencing (fun _ => "H") 2025 [] "A100" (by decide) ["NO_FAC", "QTY"]
    [⟨[("NO_FAC", .vstr "A100"), ("QTY", .vint 1)]⟩,
     ⟨[("NO_FAC", .vstr "A100"), ("QTY", .vint 2)]⟩] []
    (by decide) (Or.inl rfl)

end Etl
